import Mathlib

/-!
Shallow embedding of the backend registry, device-session initialization,
JIT option building, kernel launching and context destruction of the
libCEED/FEME sources (src/feme.c, src/backends/cuda/ceed-cuda.c,
src/backends/hip/ceed-hip.cpp, src/backends/occa/registration.cpp),
together with theorems settling the specification claims.

Strings from the C code are modelled as `List Char`; machine integers as
`Int`/`Nat` (all values involved are far from overflow); fallible calls
return `Except` or explicit result records.  Error reporting through
`FemeError`/`CeedError` is modelled as returning the error code (the
spec's replaceable "soft" handler, `FemeErrorReturn` in src/feme.c).
-/

namespace Feme

/-- The length of the common leading substring of two C strings, as computed
by the inner loop of `FemeInit` (src/feme.c:72):
`for (n = 0; prefix[n] && prefix[n] == resource[n]; n++)`.
The loop stops at the end of the first argument (the registered string) or
at the first mismatch (including the terminator of the second argument). -/
def commonLen : List Char → List Char → Nat
  | [], _ => 0
  | _ :: _, [] => 0
  | p :: ps, r :: rs => if p = r then commonLen ps rs + 1 else 0

/-- Initializer signature `int (*init)(const char *resource, Feme f)`,
modelled as the return code it produces for a resource. -/
def InitFn := List Char → Int

/-- One slot of the static `backends` table in src/feme.c, together with the
priority argument that `CeedRegister` call sites pass (the table itself
stores only prefix and initializer; the priority is kept here so that
theorems can speak about it). -/
structure BackendEntry where
  pfx : List Char
  initFn : InitFn
  prio : Int

def defaultEntry : BackendEntry := ⟨[], fun _ => 0, 0⟩

/-- Capacity of the static `backends[32]` array (src/feme.c:15). -/
def FEME_MAX_BACKENDS : Nat := 32

/-- `FemeRegister` (src/feme.c:37-45) as a state transformer: returns the
error code and the new registry.  On overflow it reports an error (code 1,
"Too many backends") and leaves the table untouched; otherwise it appends
the entry and increments the count. -/
def femeRegisterRun (bs : List BackendEntry) (p : List Char) (f : InitFn)
    (pr : Int) : Int × List BackendEntry :=
  if FEME_MAX_BACKENDS ≤ bs.length then (1, bs)
  else (0, bs ++ [⟨p, f, pr⟩])

/-- The scan loop of `FemeInit` (src/feme.c:69-77): walks the table keeping
the best match length and its index; an entry replaces the current best only
when its common length is strictly greater (`if (n > matchlen)`), so the
earliest entry wins ties.  `i` is the index of the head of the remaining
list; the accumulator is `(matchlen, matchidx)`. -/
def femeScanAux (res : List Char) : List BackendEntry → Nat → Nat × Nat → Nat × Nat
  | [], _, acc => acc
  | b :: rest, i, (ml, mi) =>
    let n := commonLen b.pfx res
    if ml < n then femeScanAux res rest (i + 1) (n, i)
    else femeScanAux res rest (i + 1) (ml, mi)

/-- Backend resolution in `FemeInit` (src/feme.c:66-83): run the scan from
`(matchlen, matchidx) = (0, 0)`; if the final match length is zero report
"No suitable backend" (code 1), otherwise return the selected index. -/
def femeResolve (bs : List BackendEntry) (res : List Char) : Except Int Nat :=
  let s := femeScanAux res bs 0 (0, 0)
  if s.1 = 0 then .error 1 else .ok s.2

/-- `FemeInit` observed through its return code and the list of initializers
it invokes: on resolution failure it returns the error with no initializer
called; on success it calls exactly the selected entry's initializer on the
resource and propagates its code. -/
def femeInitRun (bs : List BackendEntry) (res : List Char) : Int × List Nat :=
  match femeResolve bs res with
  | .error e => (e, [])
  | .ok i => ((bs.getD i defaultEntry).initFn res, [i])

/-- Match length of entry `j` against `res`; out-of-range indices give the
empty prefix, whose match length is zero. -/
def cmlAt (bs : List BackendEntry) (res : List Char) (j : Nat) : Nat :=
  commonLen (bs.getD j defaultEntry).pfx res

/-- The greatest match length over a table. -/
def maxCml (res : List Char) (bs : List BackendEntry) : Nat :=
  bs.foldr (fun b acc => max (commonLen b.pfx res) acc) 0

theorem commonLen_self (p : List Char) : commonLen p p = p.length := by
  induction p with
  | nil => rfl
  | cons c cs ih => simp [commonLen, ih]

theorem cmlAt_le_maxCml (bs : List BackendEntry) (res : List Char) (j : Nat) :
    cmlAt bs res j ≤ maxCml res bs := by
  induction bs generalizing j with
  | nil =>
    simp [cmlAt, maxCml, List.getD, defaultEntry, commonLen]
  | cons b rest ih =>
    cases j with
    | zero => simp [cmlAt, maxCml, List.getD]
    | succ j' =>
      have h := ih j'
      simp only [cmlAt, maxCml, List.foldr] at *
      calc commonLen ((b :: rest).getD (j' + 1) defaultEntry).pfx res
          = commonLen (rest.getD j' defaultEntry).pfx res := by
            simp [List.getD]
        _ ≤ rest.foldr (fun b acc => max (commonLen b.pfx res) acc) 0 := h
        _ ≤ max (commonLen b.pfx res)
              (rest.foldr (fun b acc => max (commonLen b.pfx res) acc) 0) :=
            le_max_right _ _

theorem femeScanAux_fst (res : List Char) (bs : List BackendEntry)
    (i ml mi : Nat) :
    (femeScanAux res bs i (ml, mi)).1 = max ml (maxCml res bs) := by
  induction bs generalizing i ml mi with
  | nil => simp [femeScanAux, maxCml]
  | cons b rest ih =>
    have hM : maxCml res (b :: rest)
        = max (commonLen b.pfx res) (maxCml res rest) := rfl
    simp only [femeScanAux]
    split
    · rw [ih, hM]; omega
    · rw [ih, hM]; omega

theorem femeScanAux_no_update (res : List Char) (bs : List BackendEntry)
    (i ml mi : Nat) (h : maxCml res bs ≤ ml) :
    femeScanAux res bs i (ml, mi) = (ml, mi) := by
  induction bs generalizing i with
  | nil => rfl
  | cons b rest ih =>
    have hM : maxCml res (b :: rest)
        = max (commonLen b.pfx res) (maxCml res rest) := rfl
    rw [hM] at h
    simp only [femeScanAux]
    split
    · omega
    · exact ih (i + 1) (by omega)

theorem femeScanAux_update (res : List Char) (bs : List BackendEntry) :
    ∀ i ml mi, ml < maxCml res bs →
    ∃ k, k < bs.length ∧
      femeScanAux res bs i (ml, mi) = (maxCml res bs, i + k) ∧
      commonLen (bs.getD k defaultEntry).pfx res = maxCml res bs ∧
      ∀ j, j < k → commonLen (bs.getD j defaultEntry).pfx res < maxCml res bs := by
  induction bs with
  | nil => intro i ml mi h; simp [maxCml] at h
  | cons b rest ih =>
    intro i ml mi h
    have hM : maxCml res (b :: rest)
        = max (commonLen b.pfx res) (maxCml res rest) := rfl
    by_cases hup : ml < commonLen b.pfx res
    · simp only [femeScanAux, if_pos hup]
      by_cases hrest : maxCml res rest ≤ commonLen b.pfx res
      · refine ⟨0, by simp, ?_, ?_, by intro j hj; omega⟩
        · rw [femeScanAux_no_update res rest (i + 1) _ i hrest, hM]
          simp only [Prod.mk.injEq]
          exact ⟨by omega, by omega⟩
        · show commonLen b.pfx res = maxCml res (b :: rest)
          rw [hM]; omega
      · push_neg at hrest
        obtain ⟨k', hk'len, hk'eq, hk'max, hk'lt⟩ :=
          ih (i + 1) (commonLen b.pfx res) i hrest
        have hMM : maxCml res (b :: rest) = maxCml res rest := by rw [hM]; omega
        refine ⟨k' + 1, by simpa using hk'len, ?_, ?_, ?_⟩
        · rw [hMM, hk'eq]
          simp only [Prod.mk.injEq]
          exact ⟨trivial, by omega⟩
        · rw [hMM]; simpa [List.getD] using hk'max
        · intro j hj
          cases j with
          | zero =>
            rw [hMM]
            show commonLen b.pfx res < maxCml res rest
            omega
          | succ j' =>
            rw [hMM]
            simpa [List.getD] using hk'lt j' (by omega)
    · push_neg at hup
      simp only [femeScanAux, if_neg (by omega : ¬ ml < commonLen b.pfx res)]
      have hrest : ml < maxCml res rest := by rw [hM] at h; omega
      obtain ⟨k', hk'len, hk'eq, hk'max, hk'lt⟩ := ih (i + 1) ml mi hrest
      have hMM : maxCml res (b :: rest) = maxCml res rest := by rw [hM]; omega
      refine ⟨k' + 1, by simpa using hk'len, ?_, ?_, ?_⟩
      · rw [hMM, hk'eq]
        simp only [Prod.mk.injEq]
        exact ⟨trivial, by omega⟩
      · rw [hMM]; simpa [List.getD] using hk'max
      · intro j hj
        cases j with
        | zero =>
          rw [hMM]
          show commonLen b.pfx res < maxCml res rest
          omega
        | succ j' =>
          rw [hMM]
          simpa [List.getD] using hk'lt j' (by omega)

theorem femeResolve_error_iff (bs : List BackendEntry) (res : List Char) :
    femeResolve bs res = .error 1 ↔ maxCml res bs = 0 := by
  simp only [femeResolve, femeScanAux_fst]
  by_cases hM : maxCml res bs = 0
  · simp [hM]
  · rw [if_neg (by omega)]
    simp [hM]

theorem femeResolve_ok (bs : List BackendEntry) (res : List Char) (i : Nat)
    (h : femeResolve bs res = .ok i) :
    0 < cmlAt bs res i ∧ cmlAt bs res i = maxCml res bs ∧
      ∀ j, j < i → cmlAt bs res j < maxCml res bs := by
  simp only [femeResolve] at h
  by_cases h0 : (femeScanAux res bs 0 (0, 0)).1 = 0
  · rw [if_pos h0] at h; cases h
  · rw [if_neg h0] at h
    have hM : 0 < maxCml res bs := by
      have := femeScanAux_fst res bs 0 0 0
      omega
    obtain ⟨k, hklen, hkeq, hkmax, hklt⟩ :=
      femeScanAux_update res bs 0 0 0 hM
    have h2 : (femeScanAux res bs 0 (0, 0)).2 = i := by
      injection h
    rw [hkeq] at h2
    simp only at h2
    have hik : i = k := by omega
    subst hik
    refine ⟨?_, hkmax, fun j hj => hklt j hj⟩
    show 0 < commonLen (bs.getD i defaultEntry).pfx res
    rw [hkmax]
    exact hM

theorem femeResolve_exists (bs : List BackendEntry) (res : List Char)
    (h : 0 < maxCml res bs) : ∃ i, femeResolve bs res = .ok i := by
  simp only [femeResolve, femeScanAux_fst]
  rw [if_neg (by omega)]
  exact ⟨_, rfl⟩


theorem maxCml_eq_zero_of_all (bs : List BackendEntry) (res : List Char)
    (h : ∀ j, cmlAt bs res j = 0) : maxCml res bs = 0 := by
  induction bs with
  | nil => rfl
  | cons b rest ih =>
    have h0 : commonLen b.pfx res = 0 := h 0
    have hrest : maxCml res rest = 0 := by
      refine ih fun j => ?_
      have := h (j + 1)
      simpa [cmlAt, List.getD] using this
    show max (commonLen b.pfx res) (maxCml res rest) = 0
    omega

theorem femeScanAux_congr (res : List Char) (bs1 bs2 : List BackendEntry)
    (h : bs1.map BackendEntry.pfx = bs2.map BackendEntry.pfx) :
    ∀ i acc, femeScanAux res bs1 i acc = femeScanAux res bs2 i acc := by
  induction bs1 generalizing bs2 with
  | nil =>
    cases bs2 with
    | nil => intro i acc; rfl
    | cons b2 rest2 => simp at h
  | cons b1 rest1 ih =>
    cases bs2 with
    | nil => simp at h
    | cons b2 rest2 =>
      simp only [List.map, List.cons.injEq] at h
      intro i acc
      obtain ⟨ml, mi⟩ := acc
      simp only [femeScanAux, h.1]
      split
      · exact ih rest2 h.2 (i + 1) _
      · exact ih rest2 h.2 (i + 1) _

/-- Stub initializer used in concrete registries; its return value models
the code an actual backend initializer would return. -/
def stubInit (code : Int) : InitFn := fun _ => code

/-- The three registrations named by the spec, with the priorities the
`CeedRegister` call sites pass (40, 20, 20). -/
def registry3 : List BackendEntry :=
  [⟨"/gpu/cuda/ref".toList, stubInit 10, 40⟩,
   ⟨"/gpu/hip/ref".toList, stubInit 20, 20⟩,
   ⟨"/cpu/occa".toList, stubInit 30, 20⟩]

/-- A registry with all 32 slots of the static table occupied. -/
def reg32 : List BackendEntry := List.replicate 32 ⟨['/', 'x'], stubInit 0, 0⟩

/-- C1: for every set of registered backends and every resource string,
resolution selects the registered entry whose prefix shares the strictly
greatest-length common leading substring with the resource, breaking
equal-length ties in favor of the earliest-registered entry; if no
registered prefix shares any leading character with the resource (every
match length is zero), `FemeInit` fails with the no-matching-backend error
(code 1) and invokes no initializer. -/
theorem C1_resolution_selects_greatest_match (bs : List BackendEntry)
    (res : List Char) :
    ((∀ j, cmlAt bs res j = 0) → femeInitRun bs res = (1, [])) ∧
    ((∃ j, 0 < cmlAt bs res j) → ∃ i, femeResolve bs res = .ok i) ∧
    (∀ i, femeResolve bs res = .ok i →
      0 < cmlAt bs res i ∧ (∀ j, cmlAt bs res j ≤ cmlAt bs res i) ∧
      ∀ j, j < i → cmlAt bs res j < cmlAt bs res i) := by
  refine ⟨?_, ?_, ?_⟩
  · intro h
    have hz : maxCml res bs = 0 := maxCml_eq_zero_of_all bs res h
    have he : femeResolve bs res = .error 1 :=
      (femeResolve_error_iff bs res).mpr hz
    simp [femeInitRun, he]
  · intro ⟨j, hj⟩
    exact femeResolve_exists bs res (lt_of_lt_of_le hj (cmlAt_le_maxCml bs res j))
  · intro i hi
    obtain ⟨hpos, hmax, hlt⟩ := femeResolve_ok bs res i hi
    exact ⟨hpos, fun j => hmax ▸ cmlAt_le_maxCml bs res j,
      fun j hj => hmax ▸ hlt j hj⟩

theorem C1_witness :
    ((∀ j, cmlAt registry3 "xyz".toList j = 0) ∧
      femeInitRun registry3 "xyz".toList = (1, [])) ∧
    (femeResolve registry3 "/gpu/hip/ref".toList = .ok 1 ∧
      0 < cmlAt registry3 "/gpu/hip/ref".toList 1 ∧
      (∀ j, cmlAt registry3 "/gpu/hip/ref".toList j
        ≤ cmlAt registry3 "/gpu/hip/ref".toList 1) ∧
      ∀ j, j < 1 → cmlAt registry3 "/gpu/hip/ref".toList j
        < cmlAt registry3 "/gpu/hip/ref".toList 1) := by
  have hall : ∀ j, cmlAt registry3 "xyz".toList j = 0 := by
    intro j
    match j with
    | 0 => decide
    | 1 => decide
    | 2 => decide
    | n + 3 => rfl
  refine ⟨⟨hall, (C1_resolution_selects_greatest_match registry3 "xyz".toList).1 hall⟩, ?_⟩
  have hok : femeResolve registry3 "/gpu/hip/ref".toList = .ok 1 := by rfl
  exact ⟨hok,
    (C1_resolution_selects_greatest_match registry3 "/gpu/hip/ref".toList).2.2 1 hok⟩

/-- C3: `FemeRegister` appends an entry and succeeds while fewer than 32
slots are used; once the fixed 32-slot limit is reached, a registration
call fails (code 1, "Too many backends") and leaves the registry unchanged,
so every previously registered nonempty prefix still resolves to some
entry afterwards. -/
theorem C3_register_capacity (bs : List BackendEntry) (p : List Char)
    (f : InitFn) (pr : Int) :
    (bs.length < FEME_MAX_BACKENDS →
      femeRegisterRun bs p f pr = (0, bs ++ [⟨p, f, pr⟩])) ∧
    (FEME_MAX_BACKENDS ≤ bs.length →
      femeRegisterRun bs p f pr = (1, bs) ∧
      ∀ i, i < bs.length → (bs.getD i defaultEntry).pfx ≠ [] →
        ∃ k, femeResolve (femeRegisterRun bs p f pr).2
          ((bs.getD i defaultEntry).pfx) = .ok k) := by
  constructor
  · intro h
    simp [femeRegisterRun, Nat.not_le.mpr h]
  · intro h
    have hreg : femeRegisterRun bs p f pr = (1, bs) := by
      simp [femeRegisterRun, h]
    refine ⟨hreg, fun i hi hne => ?_⟩
    rw [hreg]
    refine femeResolve_exists bs _ ?_
    have hcml : 0 < cmlAt bs ((bs.getD i defaultEntry).pfx) i := by
      show 0 < commonLen (bs.getD i defaultEntry).pfx (bs.getD i defaultEntry).pfx
      rw [commonLen_self]
      cases hp : (bs.getD i defaultEntry).pfx with
      | nil => exact absurd hp hne
      | cons c cs => simp
    exact lt_of_lt_of_le hcml (cmlAt_le_maxCml bs _ i)

theorem C3_witness :
    femeRegisterRun registry3 "/cpu/ref".toList (stubInit 0) 50
      = (0, registry3 ++ [⟨"/cpu/ref".toList, stubInit 0, 50⟩]) ∧
    femeRegisterRun reg32 "/cpu/ref".toList (stubInit 0) 50 = (1, reg32) ∧
    ∃ k, femeResolve (femeRegisterRun reg32 "/cpu/ref".toList (stubInit 0) 50).2
      ((reg32.getD 0 defaultEntry).pfx) = .ok k := by
  refine ⟨?_, ?_, ?_⟩
  · exact (C3_register_capacity registry3 "/cpu/ref".toList (stubInit 0) 50).1
      (by decide)
  · exact ((C3_register_capacity reg32 "/cpu/ref".toList (stubInit 0) 50).2
      (by decide)).1
  · exact ((C3_register_capacity reg32 "/cpu/ref".toList (stubInit 0) 50).2
      (by decide)).2 0 (by decide) (by decide)

/-- C7: resolution never consults the priority field: any two registries
whose entries carry the same prefixes in the same order — in particular,
two registration sequences differing only in the priority values — resolve
every resource to the same entry. -/
theorem C7_resolution_ignores_priority (bs1 bs2 : List BackendEntry)
    (res : List Char) (h : bs1.map BackendEntry.pfx = bs2.map BackendEntry.pfx) :
    femeResolve bs1 res = femeResolve bs2 res := by
  simp only [femeResolve, femeScanAux_congr res bs1 bs2 h 0 (0, 0)]

/-- Registry with the same prefixes as `registry3` but different priorities. -/
def registry3' : List BackendEntry :=
  [⟨"/gpu/cuda/ref".toList, stubInit 10, 0⟩,
   ⟨"/gpu/hip/ref".toList, stubInit 20, 99⟩,
   ⟨"/cpu/occa".toList, stubInit 30, 7⟩]

theorem C7_witness :
    femeResolve registry3 "/gpu/cuda/ref/2".toList
      = femeResolve registry3' "/gpu/cuda/ref/2".toList :=
  C7_resolution_ignores_priority registry3 registry3' "/gpu/cuda/ref/2".toList
    (by decide)

/-! ## Device session initialization (src/backends/cuda/ceed-cuda.c) -/

/-- The whitespace characters C `atoi` skips (`isspace` in the C locale). -/
def isSpaceC (c : Char) : Bool :=
  c = ' ' || c = '\t' || c = '\n' || c = '\x0b' || c = '\x0c' || c = '\r'

/-- Decimal digit accumulation of C `atoi`/`strtol`: consume digits, stop at
the first non-digit. -/
def digitsVal : List Char → Nat → Nat
  | c :: cs, acc => if c.isDigit then digitsVal cs (10 * acc + (c.toNat - 48)) else acc
  | [], acc => acc

/-- C `atoi`: skip leading whitespace, read an optional sign, then decimal
digits; no digits yield 0.  (Overflow behavior is irrelevant here: all
device ordinals in use are tiny.) -/
def atoi (s : List Char) : Int :=
  match s.dropWhile isSpaceC with
  | '-' :: rest => -(digitsVal rest 0 : Int)
  | '+' :: rest => (digitsVal rest 0 : Int)
  | rest => (digitsVal rest 0 : Int)

/-- The device-ordinal computation of `CeedCudaInit`
(src/backends/cuda/ceed-cuda.c:143-145):
`slash = (rlen>nrc) ? resource[nrc]=='/' : false;`
`deviceID = (slash && rlen > nrc+1) ? atoi(&resource[nrc+1]) : 0`. -/
def ceedCudaDeviceId (resource : List Char) (nrc : Nat) : Int :=
  let rlen := resource.length
  let slash := if nrc < rlen then resource.getD nrc '?' == '/' else false
  if slash && decide (nrc + 1 < rlen) then atoi (resource.drop (nrc + 1)) else 0

/-- The device session fields `CeedCudaInit` stores
(src/backends/cuda/ceed-cuda.c:156-159); `maxThreadsPerBlock` is the value
the external `cudaGetDeviceProperties` query reports. -/
structure CudaSession where
  deviceId : Int
  optblocksize : Int
deriving DecidableEq

def ceedCudaInit (resource : List Char) (nrc : Nat)
    (maxThreadsPerBlock : Int) : CudaSession :=
  ⟨ceedCudaDeviceId resource nrc, maxThreadsPerBlock⟩

/-- `CeedInit_Cuda` (src/backends/cuda/ceed-cuda.c:195-206): `nrc = 9`, the
resource is rejected when `strncmp(resource, "/gpu/cuda/ref", nrc)` is
nonzero — i.e. only the first 9 characters, `"/gpu/cuda"`, are checked —
and otherwise the session is initialized with `nrc = 9`. -/
def ceedInitCuda (resource : List Char) (maxThreadsPerBlock : Int) :
    Except Int CudaSession :=
  if resource.take 9 = "/gpu/cuda".toList
  then .ok (ceedCudaInit resource 9 maxThreadsPerBlock)
  else .error 1

/-! ## JIT compile option list (src/backends/cuda/ceed-cuda.c:31-61,
src/backends/hip/ceed-hip.cpp:30-59) -/

/-- One caller option string: `snprintf(buf[i], 32, "-D%s=%d", name, val)` —
at most 31 characters are kept. -/
def fmtDOpt (name : List Char) (val : Int) : List Char :=
  (['-', 'D'] ++ name ++ ['='] ++ (toString val).toList).take 31

/-- The four standard options of `CeedCompileCuda`: the scalar define, the
index-type define, the default-device flag and the architecture flag
formatted from the queried capability with
`snprintf(buff, 32, "-arch=compute_%d%d", prop.major, prop.minor)`. -/
def cudaStdOpts (major minor : Int) : List (List Char) :=
  ["-DCeedScalar=double".toList, "-DCeedInt=int".toList,
   "-default-device".toList,
   ("-arch=compute_".toList ++ (toString major).toList
     ++ (toString minor).toList).take 31]

/-- The four standard options of `CeedCompileHip`; the architecture flag is
`"--gpu-architecture=gfx" + to_string(prop.gcnArch)` printed into the same
32-byte buffer. -/
def hipStdOpts (gcnArch : Int) : List (List Char) :=
  ["-DCeedScalar=double".toList, "-DCeedInt=int".toList,
   "-default-device".toList,
   ("--gpu-architecture=gfx".toList ++ (toString gcnArch).toList).take 31]

/-- The option list `CeedCompileCuda` hands to
`nvrtcCompileProgram(prog, numopts + 4, opts)`: one `-D` string per caller
(name, value) pair, then the four standard options. -/
def ceedCompileOptsCuda (opts : List (List Char × Int))
    (major minor : Int) : List (List Char) :=
  opts.map (fun p => fmtDOpt p.1 p.2) ++ cudaStdOpts major minor

/-- The option list `CeedCompileHip` hands to
`hiprtcCompileProgram(prog, numopts + 4, opts)`. -/
def ceedCompileOptsHip (opts : List (List Char × Int))
    (gcnArch : Int) : List (List Char) :=
  opts.map (fun p => fmtDOpt p.1 p.2) ++ hipStdOpts gcnArch

/-- C2 counterexample: with the spec's three registrations, resource
`"/gpu/cuda/ref/2"` does select the `"/gpu/cuda/ref"` entry (index 0), but
`CeedCudaInit` parses the ordinal from position `nrc + 1 = 10`, i.e. from
`"ref/2"`, whose `atoi` is 0 — the stored device ordinal is 0, not 2. -/
theorem C2_counterexample :
    femeResolve registry3 "/gpu/cuda/ref/2".toList = .ok 0 ∧
    ceedInitCuda "/gpu/cuda/ref/2".toList 1024 = .ok ⟨0, 1024⟩ ∧
    (0 : Int) ≠ 2 := by
  refine ⟨by rfl, by rfl, by decide⟩

/-- C2 (amended): initialization checks only the first 9 characters
(`"/gpu/cuda"`) and parses the ordinal with `atoi` from position 10 when
position 9 is `'/'`; a resource of at most 9 characters yields ordinal 0;
`"/gpu/cuda/ref"` and `"/gpu/cuda/ref/2"` both yield ordinal 0 (the text
after position 9 starts with `'r'`, so `atoi` returns 0), while ordinal 2
is obtained from `"/gpu/cuda/2"`; registry resolution itself still selects
the `"/gpu/cuda/ref"` entry for `"/gpu/cuda/ref/2"`. -/
theorem C2_device_ordinal_parse (mt : Int) :
    femeResolve registry3 "/gpu/cuda/ref/2".toList = .ok 0 ∧
    ceedInitCuda "/gpu/cuda/ref/2".toList mt = .ok ⟨0, mt⟩ ∧
    ceedInitCuda "/gpu/cuda/ref".toList mt = .ok ⟨0, mt⟩ ∧
    ceedInitCuda "/gpu/cuda/2".toList mt = .ok ⟨2, mt⟩ ∧
    (∀ res : List Char, res.length ≤ 9 → ceedCudaDeviceId res 9 = 0) := by
  refine ⟨by rfl, by rfl, by rfl, by rfl, ?_⟩
  intro res h
  simp only [ceedCudaDeviceId]
  rw [if_neg (by omega : ¬ 9 < res.length)]
  simp

theorem C2_witness :
    femeResolve registry3 "/gpu/cuda/ref/2".toList = .ok 0 ∧
    ceedInitCuda "/gpu/cuda/ref/2".toList 1024 = .ok ⟨0, 1024⟩ ∧
    ("/gpu/cuda".toList.length ≤ 9 ∧ ceedCudaDeviceId "/gpu/cuda".toList 9 = 0) := by
  refine ⟨(C2_device_ordinal_parse 1024).1, (C2_device_ordinal_parse 1024).2.1, ?_⟩
  exact ⟨by decide,
    (C2_device_ordinal_parse 1024).2.2.2.2 "/gpu/cuda".toList (by decide)⟩

/-- C4: the option list handed to the runtime compiler holds exactly
`numopts + 4` strings — one `-D<name>=<value>` string (31-character bound)
per caller pair followed by the four standard options — for both the CUDA
and the HIP bridge; with zero caller options exactly the 4 standard options
are passed; and whenever a formatted caller option fits the 32-byte buffer
it is exactly the untruncated `-D<name>=<value>` string. -/
theorem C4_compile_option_count (opts : List (List Char × Int))
    (major minor gcnArch : Int) :
    (ceedCompileOptsCuda opts major minor).length = opts.length + 4 ∧
    (ceedCompileOptsHip opts gcnArch).length = opts.length + 4 ∧
    ceedCompileOptsCuda opts major minor
      = opts.map (fun p => fmtDOpt p.1 p.2) ++ cudaStdOpts major minor ∧
    ceedCompileOptsHip opts gcnArch
      = opts.map (fun p => fmtDOpt p.1 p.2) ++ hipStdOpts gcnArch ∧
    ceedCompileOptsCuda [] major minor = cudaStdOpts major minor ∧
    ceedCompileOptsHip [] gcnArch = hipStdOpts gcnArch ∧
    (cudaStdOpts major minor).length = 4 ∧
    (hipStdOpts gcnArch).length = 4 ∧
    (∀ p ∈ opts,
      (['-', 'D'] ++ p.1 ++ ['='] ++ (toString p.2).toList).length ≤ 31 →
      fmtDOpt p.1 p.2 = ['-', 'D'] ++ p.1 ++ ['='] ++ (toString p.2).toList) := by
  refine ⟨?_, ?_, rfl, rfl, rfl, rfl, rfl, rfl, ?_⟩
  · simp [ceedCompileOptsCuda, cudaStdOpts]
  · simp [ceedCompileOptsHip, hipStdOpts]
  · intro p _ hfit
    simpa [fmtDOpt] using List.take_of_length_le hfit

theorem C4_witness :
    (ceedCompileOptsCuda [("BASIS_Q".toList, 5)] 7 5).length = 1 + 4 ∧
    ceedCompileOptsCuda [] 7 5 = cudaStdOpts 7 5 ∧
    (("BASIS_Q".toList, (5 : Int)) ∈ [("BASIS_Q".toList, (5 : Int))] ∧
      fmtDOpt "BASIS_Q".toList 5 = "-DBASIS_Q=5".toList) := by
  refine ⟨(C4_compile_option_count [("BASIS_Q".toList, 5)] 7 5 0).1,
    (C4_compile_option_count [] 7 5 0).2.2.2.2.1, ?_⟩
  refine ⟨by decide, ?_⟩
  have h := (C4_compile_option_count [("BASIS_Q".toList, 5)] 7 5 0).2.2.2.2.2.2.2.2
    ("BASIS_Q".toList, 5) (by decide) (by decide)
  rw [h]
  rfl

/-! ## JIT compile failure path (src/backends/cuda/ceed-cuda.c:63-72,
src/backends/hip/ceed-hip.cpp:61-69) -/

/-- Outcome of the external runtime compiler on one invocation: the
`nvrtcCompileProgram`/`hiprtcCompileProgram` result code (0 on success),
the vendor error string for that code, the program log, and the compiled
device-code blob fetched on success. -/
structure CompilerOutcome where
  result : Int
  errString : List Char
  log : List Char
  code : List Char

/-- The compile bridge around the compiler invocation: on a nonzero result
it fetches the log (query size, allocate, fetch) and returns the
`CeedError` value whose message is built by `"%s\n%s"` from the vendor
error string and the log; on success it returns the fetched device code.
No path aborts: the error is returned to the caller. -/
def ceedCompileResult (oc : CompilerOutcome) :
    Except (Int × List Char) (List Char) :=
  if oc.result = 0 then .ok oc.code
  else .error (oc.result, oc.errString ++ '\n' :: oc.log)

/-- C5: whenever the runtime compiler rejects the source (nonzero result),
the bridge fails with a compile error carrying the vendor error string
followed by the full log — returning the error value rather than
terminating — and when the vendor message and the log are non-empty (as on
syntactically invalid source) the carried message contains both
non-trivially. -/
theorem C5_compile_error_carries_log (oc : CompilerOutcome)
    (h : oc.result ≠ 0) :
    ceedCompileResult oc
      = .error (oc.result, oc.errString ++ '\n' :: oc.log) ∧
    (oc.errString ≠ [] → oc.log ≠ [] →
      ∃ e l, ceedCompileResult oc = .error (oc.result, e ++ '\n' :: l) ∧
        e ≠ [] ∧ l ≠ []) := by
  refine ⟨by simp [ceedCompileResult, h], fun he hl => ?_⟩
  exact ⟨oc.errString, oc.log, by simp [ceedCompileResult, h], he, hl⟩

def invalidSourceOutcome : CompilerOutcome :=
  ⟨6, "NVRTC_ERROR_COMPILATION".toList, "error: expected a ;".toList, []⟩

theorem C5_witness :
    (6 : Int) ≠ 0 ∧
    ceedCompileResult invalidSourceOutcome
      = .error (6, "NVRTC_ERROR_COMPILATION".toList
          ++ '\n' :: "error: expected a ;".toList) ∧
    ∃ e l, ceedCompileResult invalidSourceOutcome
        = .error (6, e ++ '\n' :: l) ∧ e ≠ [] ∧ l ≠ [] := by
  refine ⟨by decide, ?_, ?_⟩
  · exact (C5_compile_error_carries_log invalidSourceOutcome (by decide)).1
  · exact (C5_compile_error_carries_log invalidSourceOutcome (by decide)).2
      (by decide) (by decide)

/-! ## Kernel launchers (src/backends/cuda/ceed-cuda.c:98-128,
src/backends/hip/ceed-hip.cpp:90-124) -/

/-- The grid/block/shared-memory configuration handed to
`cuLaunchKernel`/`hipModuleLaunchKernel`. -/
structure LaunchConfig where
  gridX : Int
  gridY : Int
  gridZ : Int
  blockX : Int
  blockY : Int
  blockZ : Int
  sharedMemBytes : Int
deriving DecidableEq

/-- `CeedRunKernelCuda`: `cuLaunchKernel(kernel, gridSize,1,1, blockSize,1,1, 0, ...)`. -/
def ceedRunKernelCuda (gridSize blockSize : Int) : LaunchConfig :=
  ⟨gridSize, 1, 1, blockSize, 1, 1, 0⟩

/-- `CeedRunKernelDimCuda`: 3-D block, zero shared memory. -/
def ceedRunKernelDimCuda (gridSize bx b2 b3 : Int) : LaunchConfig :=
  ⟨gridSize, 1, 1, bx, b2, b3, 0⟩

/-- `CeedRunKernelDimSharedCuda`: 3-D block, caller-supplied shared memory. -/
def ceedRunKernelDimSharedCuda (gridSize bx b2 b3 sh : Int) : LaunchConfig :=
  ⟨gridSize, 1, 1, bx, b2, b3, sh⟩

/-- `CeedRunKernelHip`: `hipModuleLaunchKernel(kernel, gridSize,1,1, blockSize,1,1, 0, ...)`. -/
def ceedRunKernelHip (gridSize blockSize : Int) : LaunchConfig :=
  ⟨gridSize, 1, 1, blockSize, 1, 1, 0⟩

/-- `CeedRunKernelDimHip`: 3-D block, zero shared memory. -/
def ceedRunKernelDimHip (gridSize bx b2 b3 : Int) : LaunchConfig :=
  ⟨gridSize, 1, 1, bx, b2, b3, 0⟩

/-- `CeedRunKernelDimSharedHip`: 3-D block, caller-supplied shared memory. -/
def ceedRunKernelDimSharedHip (gridSize bx b2 b3 sh : Int) : LaunchConfig :=
  ⟨gridSize, 1, 1, bx, b2, b3, sh⟩

/-- C8: every launcher fixes the secondary and tertiary grid dimensions at
1; the simple launchers use a 1-D block `(b,1,1)` and zero shared memory,
the `Dim` launchers a 3-D block and zero shared memory, and only the
`DimShared` launchers pass the explicitly supplied shared-memory bytes. -/
theorem C8_grid_is_one_dimensional (g b bx b2 b3 sh : Int) :
    ceedRunKernelCuda g b = ⟨g, 1, 1, b, 1, 1, 0⟩ ∧
    ceedRunKernelDimCuda g bx b2 b3 = ⟨g, 1, 1, bx, b2, b3, 0⟩ ∧
    ceedRunKernelDimSharedCuda g bx b2 b3 sh = ⟨g, 1, 1, bx, b2, b3, sh⟩ ∧
    ceedRunKernelHip g b = ⟨g, 1, 1, b, 1, 1, 0⟩ ∧
    ceedRunKernelDimHip g bx b2 b3 = ⟨g, 1, 1, bx, b2, b3, 0⟩ ∧
    ceedRunKernelDimSharedHip g bx b2 b3 sh = ⟨g, 1, 1, bx, b2, b3, sh⟩ ∧
    (ceedRunKernelCuda g b).gridY = 1 ∧ (ceedRunKernelCuda g b).gridZ = 1 ∧
    (ceedRunKernelDimCuda g bx b2 b3).gridY = 1 ∧
    (ceedRunKernelDimCuda g bx b2 b3).gridZ = 1 ∧
    (ceedRunKernelDimSharedCuda g bx b2 b3 sh).gridY = 1 ∧
    (ceedRunKernelDimSharedCuda g bx b2 b3 sh).gridZ = 1 ∧
    (ceedRunKernelHip g b).gridY = 1 ∧ (ceedRunKernelHip g b).gridZ = 1 ∧
    (ceedRunKernelDimHip g bx b2 b3).gridY = 1 ∧
    (ceedRunKernelDimHip g bx b2 b3).gridZ = 1 ∧
    (ceedRunKernelDimSharedHip g bx b2 b3 sh).gridY = 1 ∧
    (ceedRunKernelDimSharedHip g bx b2 b3 sh).gridZ = 1 := by
  repeat' apply And.intro
  all_goals rfl

/-! ## Context destruction (src/feme.c:60-64, 85-94) -/

/-- A context observed through the one field `FemeDestroy` consults: its
optional backend `Destroy` entry, modelled by the return code that entry
would produce (`none` when no `Destroy` was registered). -/
structure FemeCtx where
  destroyFn : Option Int

/-- Result of `FemeDestroy(&feme)`: the return code, the value of the
caller's handle afterwards, and whether the backend `Destroy` was invoked. -/
structure DestroyResult where
  code : Int
  handle : Option FemeCtx
  invoked : Bool

/-- `FemeDestroy` (src/feme.c:85-94): a NULL handle returns 0 immediately;
otherwise the backend `Destroy` runs if registered (its failure propagates
and leaves the handle untouched), then `FemeFree` frees the context and
NULLs the handle. -/
def femeDestroy : Option FemeCtx → DestroyResult
  | none => ⟨0, none, false⟩
  | some f =>
    match f.destroyFn with
    | none => ⟨0, none, false⟩
    | some rc => if rc = 0 then ⟨0, none, true⟩ else ⟨rc, some f, true⟩

/-- C9: destruction is null-safe and idempotent — on a NULL handle it
returns 0 without invoking any backend `Destroy`, and any successful
destroy leaves the handle NULL, so an immediately repeated destroy on the
same handle again returns 0 and invokes nothing. -/
theorem C9_destroy_null_safe_idempotent :
    femeDestroy none = ⟨0, none, false⟩ ∧
    ∀ h, (femeDestroy h).code = 0 →
      (femeDestroy h).handle = none ∧
      femeDestroy (femeDestroy h).handle = ⟨0, none, false⟩ := by
  refine ⟨rfl, fun h hc => ?_⟩
  match h with
  | none => exact ⟨rfl, rfl⟩
  | some f =>
    match hf : f.destroyFn with
    | none => simp [femeDestroy, hf]
    | some rc =>
      by_cases hrc : rc = 0
      · simp [femeDestroy, hf, hrc]
      · simp [femeDestroy, hf, hrc] at hc

theorem C9_witness :
    (femeDestroy (some ⟨some 0⟩)).code = 0 ∧
    (femeDestroy (some ⟨some 0⟩)).handle = none ∧
    femeDestroy (femeDestroy (some ⟨some 0⟩)).handle = ⟨0, none, false⟩ := by
  refine ⟨rfl, ?_⟩
  exact C9_destroy_null_safe_idempotent.2 (some ⟨some 0⟩) rfl

/-! ## Dispatch-table population by the backend initializers
(src/backends/cuda/ceed-cuda.c:208-231, src/backends/hip/ceed-hip.cpp:164-181,
src/backends/occa/registration.cpp:116-160) -/

/-- The minimum required operation names listed by the interface
(spec section 6). -/
def requiredOps : List String :=
  ["GetPreferredMemType", "VectorCreate", "BasisCreateTensorH1",
   "BasisCreateH1", "ElemRestrictionCreate", "ElemRestrictionCreateBlocked",
   "QFunctionCreate", "QFunctionContextCreate", "OperatorCreate",
   "CompositeOperatorCreate", "Destroy"]

/-- The operation names `CeedInit_Cuda` installs with
`CeedSetBackendFunction` (ceed-cuda.c:208-231), in call order. -/
def cudaRegisteredOps : List String :=
  ["GetPreferredMemType", "VectorCreate", "BasisCreateTensorH1",
   "BasisCreateH1", "ElemRestrictionCreate", "ElemRestrictionCreateBlocked",
   "QFunctionCreate", "QFunctionContextCreate", "OperatorCreate",
   "CompositeOperatorCreate", "Destroy"]

/-- The operation names `CeedInit_Hip` installs (ceed-hip.cpp:164-181): the
calls for `QFunctionContextCreate`, `CompositeOperatorCreate` and `Destroy`
are absent. -/
def hipRegisteredOps : List String :=
  ["GetPreferredMemType", "VectorCreate", "BasisCreateTensorH1",
   "BasisCreateH1", "ElemRestrictionCreate", "ElemRestrictionCreateBlocked",
   "QFunctionCreate", "OperatorCreate"]

/-- The operation names the OCCA `registerMethods` installs
(registration.cpp:116-160): all other registrations are compiled out by
`#if 0` blocks. -/
def occaRegisteredOps : List String :=
  ["GetPreferredMemType", "VectorCreate", "QFunctionCreate"]

/-- The three required operations the HIP initializer never installs. -/
def hipMissingOps : List String :=
  ["QFunctionContextCreate", "CompositeOperatorCreate", "Destroy"]

/-- C6 counterexample: `Destroy` is among the minimum required operation
names, yet neither the HIP nor the OCCA initializer installs an entry for
it. -/
theorem C6_counterexample :
    "Destroy" ∈ requiredOps ∧ "Destroy" ∉ hipRegisteredOps ∧
    "Destroy" ∉ occaRegisteredOps := by decide

/-- C6 (amended): only the CUDA initializer installs a dispatch entry for
every minimum required operation name; the HIP initializer installs all of
them except `QFunctionContextCreate`, `CompositeOperatorCreate` and
`Destroy`; the OCCA initializer installs only `GetPreferredMemType`,
`VectorCreate` and `QFunctionCreate`. -/
theorem C6_initializer_dispatch_entries :
    requiredOps.all (fun op => decide (op ∈ cudaRegisteredOps)) = true ∧
    requiredOps.all (fun op =>
      decide ((op ∈ hipRegisteredOps) ↔ op ∉ hipMissingOps)) = true ∧
    requiredOps.all (fun op =>
      decide ((op ∈ occaRegisteredOps) ↔
        (op = "GetPreferredMemType" ∨ op = "VectorCreate" ∨
         op = "QFunctionCreate"))) = true ∧
    hipRegisteredOps.all (fun op => decide (op ∈ requiredOps)) = true ∧
    occaRegisteredOps.all (fun op => decide (op ∈ requiredOps)) = true := by
  decide

/-! ## OCCA default device mode (src/backends/occa/registration.cpp:26-105) -/

/-- Leading-substring test used to build the infix search. -/
def leadEq : List Char → List Char → Bool
  | [], _ => true
  | _ :: _, [] => false
  | a :: as, b :: bs => (a == b) && leadEq as bs

/-- `std::string::find(needle) != npos`: the needle occurs somewhere in the
haystack. -/
def containsSub (needle : List Char) : List Char → Bool
  | [] => needle.isEmpty
  | c :: rest => leadEq needle (c :: rest) || containsSub needle rest

/-- `ceed::occa::getDefaultDeviceMode` (registration.cpp:26-52): with
`gpuMode` the enabled GPU modes are tried in the order CUDA, HIP, Metal,
OpenCL; with `cpuMode` the result is OpenMP when enabled, else Serial;
otherwise the empty string.  `env` is the external
`occa::modeIsEnabled` query. -/
def getDefaultDeviceMode (cpuMode gpuMode : Bool) (env : String → Bool) :
    String :=
  if gpuMode && env "CUDA" then "CUDA"
  else if gpuMode && env "HIP" then "HIP"
  else if gpuMode && env "Metal" then "Metal"
  else if gpuMode && env "OpenCL" then "OpenCL"
  else if cpuMode then (if env "OpenMP" then "OpenMP" else "Serial")
  else ""

def occaCpuMode (resource : List Char) : Bool :=
  containsSub "/cpu/occa".toList resource

def occaGpuMode (resource : List Char) : Bool :=
  containsSub "/gpu/occa".toList resource

def occaAnyMode (resource : List Char) : Bool :=
  containsSub "/*/occa".toList resource

/-- The resource validity re-check of `initCeed` (registration.cpp:56-77):
one of the three tags occurs, and when the resource is longer than 9
characters, position 9 must be a `'/'`. -/
def occaValid (resource : List Char) : Bool :=
  (occaCpuMode resource || occaGpuMode resource || occaAnyMode resource)
  && (decide (resource.length ≤ 9) || (resource.getD 9 '?' == '/'))

/-- The property blob `resource.substr(10)` (registration.cpp:73-75). -/
def occaProps (resource : List Char) : List Char :=
  if 10 < resource.length then resource.drop 10 else []

/-- Observable outcome of `ceed::occa::initCeed` (registration.cpp:54-105):
resource rejection, the "No available OCCA mode" error, device creation
from a blob that already carries a mode, or device creation with the
computed default mode.  `env` is the external `occa::modeIsEnabled` query
and `hasMode` the external `occa::properties(...).has("mode")` check. -/
inductive OccaInitResult
  | badResource
  | noMode
  | okProps
  | okDefault (mode : String)
deriving DecidableEq

def occaInitCeed (resource : List Char) (env : String → Bool)
    (hasMode : List Char → Bool) : OccaInitResult :=
  if occaValid resource then
    if hasMode (occaProps resource) then .okProps
    else
      let dm := getDefaultDeviceMode
        (occaCpuMode resource || occaAnyMode resource)
        (occaGpuMode resource || occaAnyMode resource) env
      if dm = "" then .noMode else .okDefault dm
  else .badResource

theorem getDefaultDeviceMode_cpu_ne_empty (g : Bool) (env : String → Bool) :
    getDefaultDeviceMode true g env ≠ "" := by
  unfold getDefaultDeviceMode
  split_ifs <;> simp_all

/-- C10 counterexample: `"/cpu/occa//gpu/occa"` is a valid resource in cpu
mode (it contains `"/cpu/occa"`) whose blob has no mode key, yet with the
CUDA mode enabled `initCeed` selects default mode `"CUDA"`, which is
neither `"OpenMP"` nor `"Serial"` even though OpenMP is disabled. -/
def cexOccaRes : List Char := "/cpu/occa//gpu/occa".toList

def cexOccaEnv : String → Bool := fun s => s == "CUDA"

theorem C10_counterexample :
    occaCpuMode cexOccaRes = true ∧ occaValid cexOccaRes = true ∧
    occaInitCeed cexOccaRes cexOccaEnv (fun _ => false)
      = .okDefault "CUDA" ∧
    cexOccaEnv "OpenMP" = false ∧
    ("CUDA" : String) ≠ "OpenMP" ∧ ("CUDA" : String) ≠ "Serial" := by
  refine ⟨by decide, by decide, by rfl, by decide, by decide, by decide⟩

/-- C10 (amended): for every valid OCCA resource in cpu mode whose property
blob lacks a mode key, `initCeed` reaches neither the resource rejection
nor the "No available OCCA mode" error: `getDefaultDeviceMode` returns a
non-empty mode.  When the resource matches neither `"/gpu/occa"` nor
`"/*/occa"`, that mode is `"OpenMP"` when enabled and `"Serial"` otherwise;
a resource that also matches a gpu tag may instead receive an enabled GPU
mode. -/
theorem C10_cpu_mode_error_unreachable (resource : List Char)
    (env : String → Bool) (hm : List Char → Bool)
    (hcpu : occaCpuMode resource = true)
    (hslash : resource.length ≤ 9 ∨ resource.getD 9 '?' = '/')
    (hnomode : hm (occaProps resource) = false) :
    ∃ m, occaInitCeed resource env hm = .okDefault m ∧ m ≠ "" ∧
      (occaGpuMode resource = false → occaAnyMode resource = false →
        m = if env "OpenMP" then "OpenMP" else "Serial") := by
  have hvalid : occaValid resource = true := by
    unfold occaValid
    rw [hcpu]
    rcases hslash with h | h
    · simp [h]
    · simp only [List.getD, List.get?_eq_getElem?] at h
      simp [h]
  have hflag : (occaCpuMode resource || occaAnyMode resource) = true := by
    rw [hcpu]; rfl
  have hne := getDefaultDeviceMode_cpu_ne_empty
    (occaGpuMode resource || occaAnyMode resource) env
  refine ⟨getDefaultDeviceMode true
    (occaGpuMode resource || occaAnyMode resource) env, ?_, hne, ?_⟩
  · simp only [occaInitCeed, hvalid, if_true, hnomode, hflag,
      Bool.false_eq_true, if_false]
    rw [if_neg hne]
  · intro hg ha
    rw [hg, ha]
    unfold getDefaultDeviceMode
    simp

theorem C10_witness :
    (occaCpuMode "/cpu/occa".toList = true ∧
      ("/cpu/occa".toList.length ≤ 9 ∨
        "/cpu/occa".toList.getD 9 '?' = '/') ∧
      ((fun _ => false) : List Char → Bool) (occaProps "/cpu/occa".toList)
        = false) ∧
    ∃ m, occaInitCeed "/cpu/occa".toList (fun _ => false) (fun _ => false)
        = .okDefault m ∧ m ≠ "" ∧
      (occaGpuMode "/cpu/occa".toList = false →
        occaAnyMode "/cpu/occa".toList = false →
        m = if (fun (_ : String) => false) "OpenMP" then "OpenMP"
            else "Serial") := by
  refine ⟨⟨by decide, Or.inl (by decide), rfl⟩, ?_⟩
  exact C10_cpu_mode_error_unreachable "/cpu/occa".toList (fun _ => false)
    (fun _ => false) (by decide) (Or.inl (by decide)) rfl

end Feme
